import Mathlib

/-!
Shallow embedding of the comparison core of `src/app.py` (SKV Standards and
Tender Brief Comparator).

The Python pipeline (lines 25-87) reads two spreadsheets into pandas
dataframes, filters them, embeds the texts with an external model, and then

  * for each standard clause, computes the cosine scores against every
    tender row, takes `np.argmax`, classifies the best score by threshold
    and records a result row (lines 43-74);
  * collects the tender rows whose dataframe index never appeared as a
    best-match index (lines 77-87).

The embedding below keeps the two pandas peculiarities of the source:
rows carry their *dataframe index* (the raw row position, which survives
`dropna`, and starts at 1 for the tender table because of `iloc[1:]`),
while the embedding lists and `np.argmax` work with *positions* in the
filtered lists.  Operations that raise in Python (`np.argmax` of an empty
array, tensor indexing out of bounds) are modelled with `Option`, `none`
standing for the raised exception.  Floating point scores are modelled by
`ℚ`; a possibly-NaN float is modelled by `Option ℚ` with `none` for NaN
(every comparison against NaN is false in Python).  The embedding model
and `util.cos_sim` are external dependencies (sentence_transformers), so
the core is parameterised over an embedding function and a similarity
function; the spec's own definition of cosine similarity is modelled
separately at the end of the definitions.
-/

namespace SKV

/-- One raw row of the SKV standards table, restricted to the two columns
the code reads (`skv_df[['Clauses', 'SKV Standard']]`, line 32); `none`
models a NaN/missing cell. -/
structure SkvRow where
  clauses : Option String
  standard : Option String
deriving DecidableEq

/-- One raw row of the tender table, restricted to columns 1 and 2
(`tender_df.iloc[1:, [1, 2]]`, line 33); `none` models a missing cell. -/
structure TenderRow where
  brief : Option String
  value : Option String
deriving DecidableEq

/-- One row of the comparison output (the dict appended at lines 67-72). -/
structure ResultRow where
  skvStandards : String
  tenderBrief : String
  inference : String
  fillColor : String
deriving DecidableEq

/-- One row of the extra-tender-fields output (the dict appended at
lines 81-85). -/
structure ExtraRow where
  tenderBriefExtraField : String
  value : String
  comment : String
deriving DecidableEq

/-- `dropna` on the two selected SKV columns followed by `iterrows`
(lines 32 and 46): the rows with both cells present, each tagged with its
dataframe index, i.e. its position in the raw table starting from `k`. -/
def skvRowsFrom (k : ℕ) : List SkvRow → List (ℕ × String × String)
  | [] => []
  | r :: rs =>
    match r.clauses, r.standard with
    | some c, some s => (k, c, s) :: skvRowsFrom (k + 1) rs
    | _, _ => skvRowsFrom (k + 1) rs

/-- `skv_clauses` (line 32): the filtered SKV table; dataframe indices
start at 0. -/
def skv_clauses (skv_df : List SkvRow) : List (ℕ × String × String) :=
  skvRowsFrom 0 skv_df

/-- `dropna` on the sliced tender columns followed by `iterrows`
(lines 33-35 and 79): rows with both cells present, tagged with their
dataframe index starting from `k`. -/
def tenderRowsFrom (k : ℕ) : List TenderRow → List (ℕ × String × String)
  | [] => []
  | r :: rs =>
    match r.brief, r.value with
    | some b, some v => (k, b, v) :: tenderRowsFrom (k + 1) rs
    | _, _ => tenderRowsFrom (k + 1) rs

/-- `tender_brief` (lines 33-35): `iloc[1:]` drops the first raw row
(header artifact), so the surviving rows keep dataframe indices starting
at 1, while their positions in the filtered list are 0-based. -/
def tender_brief (tender_df : List TenderRow) : List (ℕ × String × String) :=
  tenderRowsFrom 1 (tender_df.drop 1)

/-- Left-to-right scan underlying `np.argmax`: `best` is the index of the
greatest value seen so far (`bestVal`), `i` the index of the head of the
remaining list; only a strictly greater value replaces the current best,
so the first occurrence of the maximum wins. -/
def argmaxGo (i best : ℕ) (bestVal : ℚ) : List ℚ → ℕ
  | [] => best
  | y :: ys =>
    if bestVal < y then argmaxGo (i + 1) i y ys else argmaxGo (i + 1) best bestVal ys

/-- `np.argmax` (line 48): index of the first occurrence of the maximum;
`none` models the `ValueError` numpy raises on an empty array. -/
def np_argmax : List ℚ → Option ℕ
  | [] => none
  | x :: xs => some (argmaxGo 1 0 x xs)

/-- Python `score > c` on a float that may be NaN (`none`): any comparison
against NaN is false. -/
def fgt : Option ℚ → ℚ → Bool
  | some s, c => decide (c < s)
  | none, _ => false

/-- Python chained comparison `lo < score <= hi` on a float that may be
NaN (`none`): false whenever the score is NaN. -/
def fltle (lo : ℚ) : Option ℚ → ℚ → Bool
  | some s, hi => decide (lo < s ∧ s ≤ hi)
  | none, _ => false

/-- The classification ladder of lines 54-65, returning the `inference`
label together with the export `fill_color`: `score > 0.85` gives Match
(green `C6EFCE`), otherwise `0.6 < score <= 0.85` gives Needs
Clarification (yellow `FFF2CC`), otherwise Conflict (red `F4CCCC`). -/
def inference (score : Option ℚ) : String × String :=
  if fgt score 0.85 then ("✅ Match", "C6EFCE")
  else if fltle 0.6 score 0.85 then ("🟡 Needs Clarification", "FFF2CC")
  else ("❌ Conflict or Not Found", "F4CCCC")

/-- The fill applied to every row of the "Extra Tender Fields" sheet of
the exported workbook (line 119). -/
def yellow_fill : String := "FFF2CC"

/-- One iteration of the matching loop (lines 46-72) for the clause row
`(i, c, s)`: index the clause embedding list with the dataframe index `i`
(`skv_embeddings[i]`, which raises when `i` is out of bounds of the
filtered list), score every tender embedding, take `np.argmax`, look up
the best tender row positionally and classify.  Returns the result row
together with the best-match position added to `matched_tender_indices`. -/
def stepMatch {V : Type} (cosf : V → V → ℚ) (tenderB : List (ℕ × String × String))
    (skvEmb tenderEmb : List V) (row : ℕ × String × String) :
    Option (ResultRow × ℕ) :=
  match skvEmb[row.1]? with
  | none => none
  | some e =>
    match np_argmax (tenderEmb.map (cosf e)) with
    | none => none
    | some best =>
      match (tenderEmb.map (cosf e))[best]?, tenderB[best]? with
      | some score, some trow =>
        some (⟨row.2.1 ++ ": " ++ row.2.2,
               trow.2.1 ++ ": " ++ trow.2.2,
               (inference (some score)).1, (inference (some score)).2⟩, best)
      | _, _ => none

/-- The matching loop of lines 43-74: fold `stepMatch` over the filtered
clause rows, accumulating the `results` list and the
`matched_tender_indices` collection (a Python `set`; only membership in
it is ever used, so a list models it faithfully); `none` models an
exception raised inside the loop. -/
def runMatch {V : Type} (cosf : V → V → ℚ) (tenderB : List (ℕ × String × String))
    (skvEmb tenderEmb : List V) :
    List (ℕ × String × String) → List ResultRow → List ℕ →
    Option (List ResultRow × List ℕ)
  | [], results, matched => some (results, matched)
  | row :: rest, results, matched =>
    match stepMatch cosf tenderB skvEmb tenderEmb row with
    | none => none
    | some (res, best) =>
      runMatch cosf tenderB skvEmb tenderEmb rest (results ++ [res]) (matched ++ [best])

/-- The extra-tender-fields loop of lines 77-87: a single pass over the
filtered tender rows keeping those whose *dataframe index* is not in
`matched_tender_indices` (which holds *positions*, the source of the
residual defect). -/
def extra_rows (tenderB : List (ℕ × String × String)) (matched : List ℕ) :
    List ExtraRow :=
  match tenderB with
  | [] => []
  | (i, b, v) :: rest =>
    if i ∈ matched then extra_rows rest matched
    else ⟨b, v, "Not part of SKV Standards"⟩ :: extra_rows rest matched

/-- The whole comparison core (lines 32-87): filter both tables, embed
the filtered texts (the embedding lists are positional), run the matching
loop and derive the extra rows.  `embed` abstracts `model.encode` and
`cosf` abstracts `util.cos_sim` of sentence_transformers, both external
dependencies; `none` models a raised exception. -/
def compare {V : Type} (embed : String → V) (cosf : V → V → ℚ)
    (skv_df : List SkvRow) (tender_df : List TenderRow) :
    Option (List ResultRow × List ExtraRow) :=
  match runMatch cosf (tender_brief tender_df)
      ((skv_clauses skv_df).map fun r => embed r.2.1)
      ((tender_brief tender_df).map fun r => embed r.2.1)
      (skv_clauses skv_df) [] [] with
  | none => none
  | some (results, matched) =>
    some (results, extra_rows (tender_brief tender_df) matched)

/-- Dot product of two rational vectors. -/
def dot (u v : List ℚ) : ℚ := (List.zipWith (fun a b => a * b) u v).sum

/-- Modelled from the spec: the magnitude `‖u‖` of an embedding vector,
used by the spec's definition of cosine similarity; `util.cos_sim` itself
is sentence_transformers library code and not part of this repository. -/
noncomputable def magnitude (u : List ℚ) : ℝ := Real.sqrt ((dot u u : ℚ) : ℝ)

open Classical in
/-- Modelled from the spec: "Cosine similarity(u, v) = (u·v) / (‖u‖·‖v‖);
defined as 0 when either vector has zero magnitude (degenerate edge case
— must not divide by zero)."  `util.cos_sim` is library code outside this
repository. -/
noncomputable def cos_sim (u v : List ℚ) : ℝ :=
  if magnitude u = 0 ∨ magnitude v = 0 then 0
  else ((dot u v : ℚ) : ℝ) / (magnitude u * magnitude v)

/-- Claim C1 (code defect): with one clause best-matching the second of
two tender rows, the matched tender row ("T2") nevertheless appears in
the extra (residual) list, and the never-matched row ("T1") appears
nowhere: the residual pass compares dataframe indices (1 and 2) with the
argmax position (1). -/
theorem c1_residual_defect :
    compare (fun s => s) (fun a b => if a = ("C1") ∧ b = ("T2") then (1 : ℚ) else 0)
      [⟨some ("C1"), some ("S1")⟩]
      [⟨some ("H"), some ("HV")⟩, ⟨some ("T1"), some ("V1")⟩,
       ⟨some ("T2"), some ("V2")⟩] =
    some ([⟨"C1: S1", "T2: V2", "✅ Match", "C6EFCE"⟩],
          [⟨"T2", "V2", "Not part of SKV Standards"⟩]) := by
  with_unfolding_all rfl

/-- Claim C2 (code defect): with one clause and an empty tender table the
comparison does not complete: `np.argmax` of the empty score row raises,
modelled by `none`, instead of classifying the clause as Conflict. -/
theorem c2_empty_tender_raises :
    compare (fun s => s) (fun _ _ => (0 : ℚ))
      [⟨some ("C1"), some ("S1")⟩] ([] : List TenderRow) = none := by
  with_unfolding_all rfl

/-- Claim C3 (code defect): when `dropna` removes an SKV row, a surviving
clause keeps its raw dataframe index (here 1), and `skv_embeddings[1]` on
the one-element filtered embedding list raises (modelled by `none`)
instead of producing a MatchResult scored with the clause's own vector. -/
theorem c3_skv_index_defect :
    compare (fun s => s) (fun _ _ => (0 : ℚ))
      [⟨none, some ("S0")⟩, ⟨some ("A"), some ("SA")⟩]
      [⟨some ("H"), some ("HV")⟩, ⟨some ("T1"), some ("V1")⟩] = none := by
  with_unfolding_all rfl

/-- Claim C5, counterexample: one standard clause and a tender table with
only the header row (so zero tender items): the code raises (`none`)
and produces no MatchResult list at all, although the claim promises one
MatchResult per clause for any tender-list size M ≥ 0. -/
theorem c5_counterexample :
    compare (fun s => s) (fun _ _ => (0 : ℚ))
      [⟨some ("P"), some ("Q")⟩] [⟨some ("H"), some ("HV")⟩] = none ∧
    (skv_clauses [⟨some ("P"), some ("Q")⟩]).length = 1 := by
  constructor
  · with_unfolding_all rfl
  · with_unfolding_all rfl

/-- Claim C6, counterexample: a residual tender row produced by the code
carries the annotation "Not part of SKV Standards", not the text
"Not part of Standards" stated by the claim. -/
theorem c6_counterexample :
    extra_rows [(1, "T", "V")] [] = [⟨"T", "V", "Not part of SKV Standards"⟩] ∧
    "Not part of SKV Standards" ≠ "Not part of Standards" := by
  constructor
  · rfl
  · decide

/-- Every classification outcome is one of the three label/colour pairs
of lines 54-65. -/
theorem inference_cases (s : Option ℚ) :
    inference s = ("✅ Match", "C6EFCE") ∨
    inference s = ("🟡 Needs Clarification", "FFF2CC") ∨
    inference s = ("❌ Conflict or Not Found", "F4CCCC") := by
  unfold inference
  split
  · exact Or.inl rfl
  · split
    · exact Or.inr (Or.inl rfl)
    · exact Or.inr (Or.inr rfl)

/-- Claim C4: the threshold boundaries are exactly as stated: a score
strictly above 0.85 gives Match, a score in (0.6, 0.85] — including 0.85
itself — gives Needs Clarification, and a score at or below 0.6 —
including 0.6 itself — gives Conflict. -/
theorem c4_thresholds (s : ℚ) :
    ((0.85 : ℚ) < s → inference (some s) = ("✅ Match", "C6EFCE")) ∧
    ((0.6 : ℚ) < s ∧ s ≤ 0.85 →
      inference (some s) = ("🟡 Needs Clarification", "FFF2CC")) ∧
    (s ≤ (0.6 : ℚ) → inference (some s) = ("❌ Conflict or Not Found", "F4CCCC")) ∧
    inference (some 0.85) = ("🟡 Needs Clarification", "FFF2CC") ∧
    inference (some 0.6) = ("❌ Conflict or Not Found", "F4CCCC") := by
  have h85 : ∀ t : ℚ, ¬ (0.85 : ℚ) < t → fgt (some t) 0.85 = false := by
    intro t ht
    simp [fgt, ht]
  refine ⟨?_, ?_, ?_, ?_, ?_⟩
  · intro h
    have h1 : fgt (some s) 0.85 = true := by
      simp [fgt]
      exact h
    simp [inference, h1]
  · rintro ⟨h1, h2⟩
    have hf : fgt (some s) 0.85 = false := h85 s (by linarith)
    have hl : fltle 0.6 (some s) 0.85 = true := by
      simp [fltle]
      exact ⟨h1, h2⟩
    simp [inference, hf, hl]
  · intro h
    have hf : fgt (some s) 0.85 = false := h85 s (by linarith)
    have hl : fltle 0.6 (some s) 0.85 = false := by
      simp [fltle]
      intro h1
      linarith
    simp [inference, hf, hl]
  · with_unfolding_all rfl
  · with_unfolding_all rfl

/-- Witness for C4: a score of 1 is classified Match. -/
theorem c4_witness : inference (some 1) = ("✅ Match", "C6EFCE") :=
  (c4_thresholds 1).1 (by norm_num)

/-- Claim C9: the classification is total — every score, including a NaN
score (`none`), falls into exactly one of the three branches, and a score
satisfying neither guard (NaN in particular) lands in the final else
branch and is classified Conflict. -/
theorem c9_classification_total :
    (∀ s : Option ℚ,
      inference s = ("✅ Match", "C6EFCE") ∨
      inference s = ("🟡 Needs Clarification", "FFF2CC") ∨
      inference s = ("❌ Conflict or Not Found", "F4CCCC")) ∧
    inference none = ("❌ Conflict or Not Found", "F4CCCC") ∧
    (∀ s : Option ℚ, fgt s 0.85 = false → fltle 0.6 s 0.85 = false →
      inference s = ("❌ Conflict or Not Found", "F4CCCC")) := by
  refine ⟨inference_cases, ?_, ?_⟩
  · with_unfolding_all rfl
  · intro s h1 h2
    simp [inference, h1, h2]

/-- Witness for C9: the NaN score satisfies neither guard and is
classified Conflict. -/
theorem c9_witness : inference none = ("❌ Conflict or Not Found", "F4CCCC") :=
  c9_classification_total.2.2 none rfl rfl

/-- Claim C7: the core after embedding is a pure, deterministic function
of its inputs: repeated invocation returns identical results, and the
residual derivation depends on `matched_tender_indices` (a Python `set`)
only through membership, never through iteration order. -/
theorem c7_determinism :
    (∀ (V : Type) (embed : String → V) (cosf : V → V → ℚ)
        (skv_df : List SkvRow) (tender_df : List TenderRow),
      compare embed cosf skv_df tender_df = compare embed cosf skv_df tender_df) ∧
    (∀ (t : List (ℕ × String × String)) (m1 m2 : List ℕ),
      (∀ x : ℕ, x ∈ m1 ↔ x ∈ m2) → extra_rows t m1 = extra_rows t m2) := by
  refine ⟨fun _ _ _ _ _ => rfl, ?_⟩
  intro t m1 m2 h
  induction t with
  | nil => rfl
  | cons r rs ih =>
    obtain ⟨i, b, v⟩ := r
    simp only [extra_rows]
    by_cases hm : i ∈ m1
    · rw [if_pos hm, if_pos ((h i).mp hm), ih]
    · rw [if_neg hm, if_neg (fun hc => hm ((h i).mpr hc)), ih]

/-- Witness for C7: two enumerations of the same matched set give the
same residual list. -/
theorem c7_witness :
    extra_rows [(1, "a", "b")] [0, 1] = extra_rows [(1, "a", "b")] [1, 0] :=
  c7_determinism.2 [(1, "a", "b")] [0, 1] [1, 0] (by
    intro x
    constructor <;> intro hx <;> simp at hx ⊢ <;> omega)

/-- Every extra row carries the fixed annotation of line 84. -/
theorem extra_rows_comment (t : List (ℕ × String × String)) (m : List ℕ) :
    ∀ x ∈ extra_rows t m, x.comment = "Not part of SKV Standards" := by
  induction t with
  | nil =>
    intro x hx
    simp [extra_rows] at hx
  | cons r rs ih =>
    intro x hx
    obtain ⟨i, b, v⟩ := r
    simp only [extra_rows] at hx
    by_cases hm : i ∈ m
    · rw [if_pos hm] at hx
      exact ih x hx
    · rw [if_neg hm] at hx
      rcases List.mem_cons.mp hx with h1 | h1
      · subst h1
        rfl
      · exact ih x h1

/-- The residual loop is exactly a filter of the tender rows by
non-membership of their dataframe index, followed by the row-to-output
projection. -/
theorem extra_rows_eq_filter (t : List (ℕ × String × String)) (m : List ℕ) :
    extra_rows t m = (t.filter fun r => decide (r.1 ∉ m)).map
      (fun r => ⟨r.2.1, r.2.2, "Not part of SKV Standards"⟩) := by
  induction t with
  | nil => rfl
  | cons r rs ih =>
    obtain ⟨i, b, v⟩ := r
    simp only [extra_rows, List.filter_cons]
    by_cases hm : i ∈ m
    · simp [hm, ih]
    · simp [hm, ih]

/-- Every dataframe index produced by the tender filter is at least the
starting index. -/
theorem tenderRowsFrom_le (l : List TenderRow) :
    ∀ (k : ℕ) (x : ℕ × String × String), x ∈ tenderRowsFrom k l → k ≤ x.1 := by
  induction l with
  | nil =>
    intro k x hx
    simp [tenderRowsFrom] at hx
  | cons r rs ih =>
    intro k x hx
    obtain ⟨b, v⟩ := r
    cases b with
    | none =>
      simp only [tenderRowsFrom] at hx
      exact le_trans (Nat.le_succ k) (ih (k + 1) x hx)
    | some bb =>
      cases v with
      | none =>
        simp only [tenderRowsFrom] at hx
        exact le_trans (Nat.le_succ k) (ih (k + 1) x hx)
      | some vv =>
        simp only [tenderRowsFrom] at hx
        rcases List.mem_cons.mp hx with h1 | h1
        · subst h1
          exact le_refl k
        · exact le_trans (Nat.le_succ k) (ih (k + 1) x h1)

/-- The dataframe indices of the filtered tender rows are strictly
increasing. -/
theorem tenderRowsFrom_pairwise (l : List TenderRow) :
    ∀ k : ℕ, (tenderRowsFrom k l).Pairwise (fun a b => a.1 < b.1) := by
  induction l with
  | nil =>
    intro k
    simp [tenderRowsFrom]
  | cons r rs ih =>
    intro k
    obtain ⟨b, v⟩ := r
    cases b with
    | none => simpa only [tenderRowsFrom] using ih (k + 1)
    | some bb =>
      cases v with
      | none => simpa only [tenderRowsFrom] using ih (k + 1)
      | some vv =>
        simp only [tenderRowsFrom]
        exact List.Pairwise.cons
          (fun y hy => Nat.lt_of_succ_le (tenderRowsFrom_le rs (k + 1) y hy))
          (ih (k + 1))

/-- Claim C10: the residual list is a single filtering pass over the
tender rows, and the dataframe indices of the rows it keeps are pairwise
distinct, so each tender item contributes at most one residual row. -/
theorem c10_residual_nodup (tender_df : List TenderRow) (m : List ℕ) :
    extra_rows (tender_brief tender_df) m =
      ((tender_brief tender_df).filter fun r => decide (r.1 ∉ m)).map
        (fun r => ⟨r.2.1, r.2.2, "Not part of SKV Standards"⟩) ∧
    (((tender_brief tender_df).filter fun r => decide (r.1 ∉ m)).map
      Prod.fst).Nodup := by
  refine ⟨extra_rows_eq_filter _ m, ?_⟩
  have hp : (tender_brief tender_df).Pairwise (fun a b => a.1 < b.1) :=
    tenderRowsFrom_pairwise _ 1
  have hf : ((tender_brief tender_df).filter fun r => decide (r.1 ∉ m)).Pairwise
      (fun a b => a.1 < b.1) :=
    hp.sublist (List.filter_sublist _)
  exact List.Pairwise.map Prod.fst (fun a b hab => Nat.ne_of_lt hab) hf

/-- A successful loop iteration formats the clause cell into the result
row and classifies some score with the ladder of lines 54-65. -/
theorem stepMatch_fields {V : Type} (cosf : V → V → ℚ)
    (tenderB : List (ℕ × String × String)) (skvEmb tenderEmb : List V)
    (row : ℕ × String × String) (p : ResultRow × ℕ)
    (h : stepMatch cosf tenderB skvEmb tenderEmb row = some p) :
    p.1.skvStandards = row.2.1 ++ ": " ++ row.2.2 ∧
    ∃ s : ℚ, (p.1.inference, p.1.fillColor) = inference (some s) := by
  unfold stepMatch at h
  split at h
  · exact absurd h (by simp)
  split at h
  · exact absurd h (by simp)
  split at h
  · cases h
    exact ⟨rfl, ⟨_, rfl⟩⟩
  all_goals exact absurd h (by simp)

/-- A completed matching loop appends one result row per clause row, in
order, with the clause cell of row i formatted into result i. -/
theorem runMatch_skv_map {V : Type} (cosf : V → V → ℚ)
    (tenderB : List (ℕ × String × String)) (skvEmb tenderEmb : List V) :
    ∀ (cls : List (ℕ × String × String)) (acc : List ResultRow) (m : List ℕ)
      (R : List ResultRow) (M : List ℕ),
      runMatch cosf tenderB skvEmb tenderEmb cls acc m = some (R, M) →
      R.map (fun r => r.skvStandards) =
        acc.map (fun r => r.skvStandards) ++
          cls.map (fun r => r.2.1 ++ ": " ++ r.2.2) := by
  intro cls
  induction cls with
  | nil =>
    intro acc m R M h
    simp only [runMatch, Option.some.injEq, Prod.mk.injEq] at h
    obtain ⟨h1, h2⟩ := h
    subst h1
    simp
  | cons row rest ih =>
    intro acc m R M h
    simp only [runMatch] at h
    split at h
    · exact absurd h (by simp)
    · rename_i res best heq
      have hf := stepMatch_fields cosf tenderB skvEmb tenderEmb row (res, best) heq
      have hf1 : res.skvStandards = row.2.1 ++ ": " ++ row.2.2 := hf.1
      have hr := ih (acc ++ [res]) (m ++ [best]) R M h
      rw [hr]
      simp [hf1, List.append_assoc]

/-- Every row of a completed matching loop either was in the accumulator
or is classified by the ladder of lines 54-65. -/
theorem runMatch_rows_mem {V : Type} (cosf : V → V → ℚ)
    (tenderB : List (ℕ × String × String)) (skvEmb tenderEmb : List V) :
    ∀ (cls : List (ℕ × String × String)) (acc : List ResultRow) (m : List ℕ)
      (R : List ResultRow) (M : List ℕ),
      runMatch cosf tenderB skvEmb tenderEmb cls acc m = some (R, M) →
      ∀ r ∈ R, r ∈ acc ∨
        ∃ s : ℚ, (r.inference, r.fillColor) = inference (some s) := by
  intro cls
  induction cls with
  | nil =>
    intro acc m R M h r hr
    simp only [runMatch, Option.some.injEq, Prod.mk.injEq] at h
    obtain ⟨h1, h2⟩ := h
    subst h1
    exact Or.inl hr
  | cons row rest ih =>
    intro acc m R M h r hr
    simp only [runMatch] at h
    split at h
    · exact absurd h (by simp)
    · rename_i res best heq
      rcases ih (acc ++ [res]) (m ++ [best]) R M h r hr with h1 | h1
      · rcases List.mem_append.mp h1 with h2 | h2
        · exact Or.inl h2
        · right
          have hf := stepMatch_fields cosf tenderB skvEmb tenderEmb row (res, best) heq
          have h3 := List.mem_singleton.mp h2
          subst h3
          exact hf.2
      · exact Or.inr h1

/-- Claim C5 (amended): whenever the comparison completes without
raising, the number of result rows equals the number of filtered standard
clauses and the rows are in clause order (result i is formatted from
clause i). -/
theorem c5_totality {V : Type} (embed : String → V) (cosf : V → V → ℚ)
    (skv_df : List SkvRow) (tender_df : List TenderRow)
    (R : List ResultRow) (E : List ExtraRow)
    (h : compare embed cosf skv_df tender_df = some (R, E)) :
    R.length = (skv_clauses skv_df).length ∧
    R.map (fun r => r.skvStandards) =
      (skv_clauses skv_df).map (fun r => r.2.1 ++ ": " ++ r.2.2) := by
  unfold compare at h
  split at h
  · exact absurd h (by simp)
  · rename_i results matched heq
    simp only [Option.some.injEq, Prod.mk.injEq] at h
    obtain ⟨h1, h2⟩ := h
    subst h1
    have hm := runMatch_skv_map cosf (tender_brief tender_df)
      ((skv_clauses skv_df).map fun r => embed r.2.1)
      ((tender_brief tender_df).map fun r => embed r.2.1)
      (skv_clauses skv_df) [] [] results matched heq
    simp only [List.map_nil, List.nil_append] at hm
    constructor
    · have hl := congrArg List.length hm
      simpa using hl
    · exact hm

/-- Witness for C5 (amended): on a run that completes, one clause yields
exactly one result row. -/
theorem c5_witness :
    ([⟨"A: B", "T: V", "✅ Match", "C6EFCE"⟩] : List ResultRow).length =
      (skv_clauses [⟨some ("A"), some ("B")⟩]).length ∧
    ([⟨"A: B", "T: V", "✅ Match", "C6EFCE"⟩] : List ResultRow).map
        (fun r => r.skvStandards) =
      (skv_clauses [⟨some ("A"), some ("B")⟩]).map
        (fun r => r.2.1 ++ ": " ++ r.2.2) :=
  c5_totality (fun _ => ()) (fun _ _ => 1) [⟨some ("A"), some ("B")⟩]
    [⟨some ("H"), some ("HV")⟩, ⟨some ("T"), some ("V")⟩]
    [⟨"A: B", "T: V", "✅ Match", "C6EFCE"⟩]
    [⟨"T", "V", "Not part of SKV Standards"⟩]
    (by with_unfolding_all rfl)

/-- Claim C6 (amended): on a run that completes, the label/colour pair of
every result row is a pure function of the classification (Match → green
C6EFCE, Needs Clarification → yellow FFF2CC, Conflict → red F4CCCC),
every residual row carries the fixed annotation "Not part of SKV
Standards", and the export paints residual rows with the fixed yellow
fill FFF2CC. -/
theorem c6_presentation {V : Type} (embed : String → V) (cosf : V → V → ℚ)
    (skv_df : List SkvRow) (tender_df : List TenderRow)
    (R : List ResultRow) (E : List ExtraRow)
    (h : compare embed cosf skv_df tender_df = some (R, E)) :
    (∀ r ∈ R,
      (r.inference, r.fillColor) = ("✅ Match", "C6EFCE") ∨
      (r.inference, r.fillColor) = ("🟡 Needs Clarification", "FFF2CC") ∨
      (r.inference, r.fillColor) = ("❌ Conflict or Not Found", "F4CCCC")) ∧
    (∀ x ∈ E, x.comment = "Not part of SKV Standards") ∧
    yellow_fill = "FFF2CC" := by
  unfold compare at h
  split at h
  · exact absurd h (by simp)
  · rename_i results matched heq
    simp only [Option.some.injEq, Prod.mk.injEq] at h
    obtain ⟨h1, h2⟩ := h
    subst h1
    subst h2
    refine ⟨?_, ?_, rfl⟩
    · intro r hr
      rcases runMatch_rows_mem cosf (tender_brief tender_df)
          ((skv_clauses skv_df).map fun r => embed r.2.1)
          ((tender_brief tender_df).map fun r => embed r.2.1)
          (skv_clauses skv_df) [] [] results matched heq r hr with h3 | h3
      · simp at h3
      · obtain ⟨s, hs⟩ := h3
        rw [hs]
        exact inference_cases (some s)
    · intro x hx
      exact extra_rows_comment _ _ x hx

/-- Witness for C6 (amended): a residual row of a completed run carries
the fixed annotation. -/
theorem c6_witness :
    (⟨"T", "V", "Not part of SKV Standards"⟩ : ExtraRow).comment =
      "Not part of SKV Standards" :=
  (c6_presentation (fun _ => ()) (fun _ _ => (0 : ℚ))
    [⟨some ("A"), some ("B")⟩]
    [⟨some ("H"), some ("HV")⟩, ⟨some ("T"), some ("V")⟩]
    [⟨"A: B", "T: V", "❌ Conflict or Not Found", "F4CCCC"⟩]
    [⟨"T", "V", "Not part of SKV Standards"⟩]
    (by with_unfolding_all rfl)).2.1
    ⟨"T", "V", "Not part of SKV Standards"⟩ (by simp)

/-- Claim C8 (modelled from the spec, `util.cos_sim` being library code):
cosine similarity equals the quotient of the dot product by the product
of the magnitudes when both magnitudes are nonzero, and is defined as 0
when either magnitude is zero, so the quotient is never formed with a
zero denominator. -/
theorem c8_cos_sim (u v : List ℚ) :
    (magnitude u ≠ 0 → magnitude v ≠ 0 →
      cos_sim u v = ((dot u v : ℚ) : ℝ) / (magnitude u * magnitude v)) ∧
    (magnitude u = 0 ∨ magnitude v = 0 → cos_sim u v = 0) := by
  constructor
  · intro hu hv
    unfold cos_sim
    rw [if_neg (not_or.mpr ⟨hu, hv⟩)]
  · intro h
    unfold cos_sim
    rw [if_pos h]

/-- The one-dimensional unit vector has nonzero magnitude. -/
theorem magnitude_one_ne : magnitude [(1 : ℚ)] ≠ 0 := by
  unfold magnitude dot
  simp

/-- Witness for C8: on two unit vectors both magnitudes are nonzero and
the similarity is the explicit quotient. -/
theorem c8_witness :
    cos_sim [(1 : ℚ)] [(1 : ℚ)] =
      ((dot [(1 : ℚ)] [(1 : ℚ)] : ℚ) : ℝ) /
        (magnitude [(1 : ℚ)] * magnitude [(1 : ℚ)]) :=
  (c8_cos_sim [(1 : ℚ)] [(1 : ℚ)]).1 magnitude_one_ne magnitude_one_ne

end SKV
